import Mathlib

set_option maxHeartbeats 1000000

/-!
Shallow embedding of the repository's two Python modules.

`check_navlink_crcs.py`: the static CRC consistency checker — catalog,
text-artifact extractor (`parse_c_header_crcs`), comparator (`compare_crcs`)
and driver verdict (`main`).

`test_navlink_msg.py`: the dynamic conformance harness — callback registry
and dispatch of `SimpleVehicle` (`on_message`, `_reader_loop`), the
heartbeat wait (`wait_heartbeat_from`), the driver control flow (`main`)
and the key=value parameter conversion (`parse_params`).

Machine-level notes on the embedding:
* Python dicts become association lists with first-match lookup and
  insertion-order-preserving update (`dictInsert`), as Python guarantees.
* The regex `\d` and `\s` classes are modelled over their ASCII meaning
  (the header files scanned are ASCII C sources).
* `float(...)` is modelled as exact decimal parsing into `ℚ`; only which
  branch of the sniffing rule fires (and the decimal digits parsed) matter
  to the claims, not IEEE-754 rounding.
-/

/-- The `NAVLINK_MESSAGES` catalog: logical name to numeric id, in source
order (identical in both Python files). -/
def NAVLINK_MESSAGES : List (String × Nat) :=
  [("CHECK_IN", 25002),
   ("CHECK_OUT", 25003),
   ("SWARM_HEARTBEAT", 25004),
   ("AVAILABLE_TASK_REQUEST", 25104),
   ("AVAILABLE_TASK_RESPONSE", 25105),
   ("TASK_ASSIGN_REQUEST", 25106),
   ("TASK_ASSIGN_RESPONSE", 25107),
   ("TASK_CONFIRM_REQUEST", 25108),
   ("TASK_CONFIRM_RESPONSE", 25109),
   ("SLOT_HEARTBEAT", 25200),
   ("SLOT_CLAIM", 25201),
   ("VOTE_PHASE", 25202),
   ("SEARCH_STATUS", 25300)]

/-- One extracted message descriptor: the per-id dict
`\x7b'name': …, 'crc': …, 'len': …\x7d` built by both extractors. -/
structure Desc where
  name : String
  crc : Nat
  len : Nat
  deriving DecidableEq, Repr

/-- A source table: the Python dict mapping `msg_id` to its descriptor,
modelled as an insertion-ordered association list. -/
abbrev Table := List (Nat × Desc)

/-- Dict membership/lookup `crcs[msg_id]` (first matching key). -/
def findEntry (t : Table) (id : Nat) : Option Desc :=
  (t.find? (fun p => p.1 == id)).map Prod.snd

/-- Dict assignment `crcs[msg_id] = d`: update the existing key in place,
otherwise append (Python dicts preserve insertion order). -/
def dictInsert (t : Table) (id : Nat) (d : Desc) : Table :=
  if t.any (fun p => p.1 == id) then
    t.map (fun p => if p.1 == id then (id, d) else p)
  else t ++ [(id, d)]

/-- The `issue` field of a discrepancy record produced by `compare_crcs`,
with the interpolated values kept structured: `Missing in <source>` or
`CRC mismatch: <name1>=<crc1> vs <name2>=<crc2>`. -/
inductive Issue where
  | missingIn (sourceName : String)
  | crcMismatch (name1 : String) (crc1 : Nat) (name2 : String) (crc2 : Nat)
  deriving DecidableEq, Repr

/-- One error record appended by `compare_crcs`:
`\x7b'msg_id': …, 'name': …, 'issue': …\x7d`. -/
structure Discrepancy where
  msg_id : Nat
  name : String
  issue : Issue
  deriving DecidableEq, Repr

/-- The body of the `for msg_id in sorted(all_ids)` loop of `compare_crcs`:
the (zero or one) error records appended for a single id. -/
def compareAt (source1_name : String) (t1 : Table) (source2_name : String)
    (t2 : Table) (msg_id : Nat) : List Discrepancy :=
  match findEntry t1 msg_id, findEntry t2 msg_id with
  | none, some d2 => [⟨msg_id, d2.name, Issue.missingIn source1_name⟩]
  | some d1, none => [⟨msg_id, d1.name, Issue.missingIn source2_name⟩]
  | some s1, some s2 =>
      if s1.crc ≠ s2.crc then
        [⟨msg_id, s1.name, Issue.crcMismatch source1_name s1.crc source2_name s2.crc⟩]
      else []
  | none, none => []

/-- `sorted(set(source1_crcs.keys()) | set(source2_crcs.keys()))`. -/
def allIds (t1 t2 : Table) : List Nat :=
  List.insertionSort (· ≤ ·) ((t1.map Prod.fst ++ t2.map Prod.fst).dedup)

/-- `compare_crcs(source1_name, source1_crcs, source2_name, source2_crcs)`,
returning `(errors, warnings)`; `warnings` is always empty in the source.
If either table is `None` it returns the empty pair immediately. -/
def compare_crcs (source1_name : String) (source1_crcs : Option Table)
    (source2_name : String) (source2_crcs : Option Table) :
    List Discrepancy × List Discrepancy :=
  match source1_crcs, source2_crcs with
  | some t1, some t2 =>
      (((allIds t1 t2).map (compareAt source1_name t1 source2_name t2)).flatten, [])
  | _, _ => ([], [])

/-- Python truthiness of a `sources[...]` entry: `None` and the empty dict
are falsy, a non-empty dict is truthy. -/
def truthy : Option Table → Bool
  | none => false
  | some t => !t.isEmpty

/-- The three extraction results stored in the `sources` dict of `main`. -/
structure Sources where
  pymavlink : Option Table
  ardupilot : Option Table
  router : Option Table
  deriving Repr

/-- `sources[name]` for the three keys used by the pair loop. -/
def Sources.get (s : Sources) (name : String) : Option Table :=
  if name = "pymavlink" then s.pymavlink
  else if name = "ardupilot" then s.ardupilot
  else if name = "router" then s.router
  else none

/-- The fixed pair list of `main`. -/
def pairs : List (String × String) :=
  [("pymavlink", "ardupilot"), ("pymavlink", "router"), ("ardupilot", "router")]

/-- The `all_errors` accumulation of `main`: for each pair, compare only
when both entries are truthy, and concatenate the error lists. -/
def runPairs (s : Sources) : List Discrepancy :=
  pairs.foldl
    (fun acc p =>
      if truthy (s.get p.1) && truthy (s.get p.2) then
        acc ++ (compare_crcs p.1 (s.get p.1) p.2 (s.get p.2)).1
      else acc)
    []

/-- The verdict of `main`: return 1 when `all_errors` is non-empty (FAIL),
0 otherwise (PASS); `sys.exit(main())` makes this the process exit status. -/
def check_main (s : Sources) : Nat :=
  if !(runPairs s).isEmpty then 1 else 0

/-- Numeric value of a run of decimal digit characters. -/
def natOfDigits (ds : List Char) : Nat :=
  ds.foldl (fun n c => n * 10 + (c.toNat - 48)) 0

/-- Regex token `\d+` (greedy): one or more digits, returning the value and
the unconsumed rest. -/
def readDigits (cs : List Char) : Option (Nat × List Char) :=
  if (cs.takeWhile Char.isDigit).isEmpty then none
  else some (natOfDigits (cs.takeWhile Char.isDigit), cs.dropWhile Char.isDigit)

/-- Consume one expected literal character. -/
def expectChar (c : Char) : List Char → Option (List Char)
  | x :: xs => if x == c then some xs else none
  | [] => none

/-- Regex tokens `,\s*`: a comma followed by optional whitespace. -/
def commaWS (cs : List Char) : Option (List Char) :=
  (expectChar ',' cs).map (List.dropWhile Char.isWhitespace)

/-- Regex tokens `,\s*\d+`: one further tuple field after the first. -/
def tupleField (cs : List Char) : Option (Nat × List Char) :=
  (commaWS cs).bind readDigits

/-- One attempted match, at the current position, of the tuple pattern of
`parse_c_header_crcs`, a 7-tuple of integers in braces with whitespace
allowed only after commas.  Returns the four captured groups
(id, crc, min_len, max_len) and the rest of the input. -/
def matchTuple (cs : List Char) : Option ((Nat × Nat × Nat × Nat) × List Char) :=
  (expectChar '\x7b' cs).bind fun cs0 =>
  (readDigits cs0).bind fun p1 =>
  (tupleField p1.2).bind fun p2 =>
  (tupleField p2.2).bind fun p3 =>
  (tupleField p3.2).bind fun p4 =>
  (tupleField p4.2).bind fun p5 =>
  (tupleField p5.2).bind fun p6 =>
  (tupleField p6.2).bind fun p7 =>
  (expectChar '\x7d' p7.2).map fun rest =>
  ((p1.1, p2.1, p3.1, p4.1), rest)

/-- `re.findall` over the whole content: scan left to right, at each
position try the tuple pattern; on a match emit the groups and resume
after it, otherwise advance one character.  The fuel argument (the input
length) only bounds the recursion; a successful match always consumes at
least one character, so it is never exhausted early. -/
def findTuplesAux : Nat → List Char → List (Nat × Nat × Nat × Nat)
  | 0, _ => []
  | _ + 1, [] => []
  | fuel + 1, c :: cs =>
    match matchTuple (c :: cs) with
    | some (e, rest) => e :: findTuplesAux fuel rest
    | none => findTuplesAux fuel cs

/-- All non-overlapping tuple matches in the content, leftmost first. -/
def findTuples (cs : List Char) : List (Nat × Nat × Nat × Nat) :=
  findTuplesAux cs.length cs

/-- The literal part of the guard pattern
`#define MAVLINK_MESSAGE_CRCS\s*\x7b\x7b`. -/
def definePrefix : List Char := "#define MAVLINK_MESSAGE_CRCS".toList

/-- Does the guard pattern match at the current position? -/
def matchesDefineAt (cs : List Char) : Bool :=
  definePrefix.isPrefixOf cs &&
    List.isPrefixOf ['\x7b', '\x7b']
      ((cs.drop definePrefix.length).dropWhile Char.isWhitespace)

/-- `re.search` for the guard pattern: does it match at any position? -/
def containsDefine : List Char → Bool
  | [] => false
  | c :: cs => matchesDefineAt (c :: cs) || containsDefine cs

/-- First catalog name mapped to `msg_id`:
`[k for k, v in NAVLINK_MESSAGES.items() if v == msg_id][0]`, `none` when
the id is not in the catalog (the Python guard `msg_id in
NAVLINK_MESSAGES.values()`). -/
def navlinkName (msg_id : Nat) : Option String :=
  ((NAVLINK_MESSAGES.filter (fun p => p.2 == msg_id)).map Prod.fst).head?

/-- The accumulation loop of `parse_c_header_crcs`: keep id, crc and
max_len of each catalog-relevant tuple, discarding the rest. -/
def buildTable : List (Nat × Nat × Nat × Nat) → Table → Table
  | [], acc => acc
  | (msgId, crc, _minLen, maxLen) :: es, acc =>
    match navlinkName msgId with
    | some name => buildTable es (dictInsert acc msgId ⟨name, crc, maxLen⟩)
    | none => buildTable es acc

/-- `parse_c_header_crcs(header_path)`.  The filesystem is modelled by the
argument: `none` when the file does not exist, otherwise the file content.
Returns `None` when the file is missing or the guard pattern is absent. -/
def parse_c_header_crcs (file : Option String) : Option Table :=
  match file with
  | none => none
  | some content =>
    if containsDefine content.toList then
      some (buildTable (findTuples content.toList) [])
    else none

/-- A registered callback of `SimpleVehicle`: it takes the received message
and the current shared state and returns the successor state together with
an optional raised exception.  (A Python callback mutates shared state and
may raise; the state component is whatever it left behind, the exception
component is what the `except` clause of `_reader_loop` catches.) -/
abbrev Callback (M S E : Type) := M → S → S × Option E

/-- The `_callbacks` dict of `SimpleVehicle`: message-type name (or the
wildcard key) to the ordered list of registered callbacks, as an
insertion-ordered association list. -/
abbrev Callbacks (M S E : Type) := List (String × List (Callback M S E))

/-- `self._callbacks.get(key, [])`. -/
def getCallbacks {M S E : Type} (cbs : Callbacks M S E) (key : String) :
    List (Callback M S E) :=
  match cbs.find? (fun p => p.1 == key) with
  | some p => p.2
  | none => []

/-- `SimpleVehicle.on_message`: create the key with an empty list when
absent (appending the new key at the end, as Python dict insertion does),
then append the callback to the key's list. -/
def on_message {M S E : Type} (cbs : Callbacks M S E) (msg_type : String)
    (callback : Callback M S E) : Callbacks M S E :=
  if cbs.any (fun p => p.1 == msg_type) then
    cbs.map (fun p => if p.1 == msg_type then (p.1, p.2 ++ [callback]) else p)
  else cbs ++ [(msg_type, [callback])]

/-- Register a whole list of (key, callback) pairs in order, starting from
the empty `_callbacks` dict. -/
def registerAll {M S E : Type} (regs : List (String × Callback M S E)) :
    Callbacks M S E :=
  regs.foldl (fun c r => on_message c r.1 r.2) []

/-- The inner dispatch of `_reader_loop`: run each callback of the list in
order on the message; a raised exception is caught (the state the callback
left behind is kept, the exception is only logged) and the remaining
callbacks still run. -/
def runCallbacks {M S E : Type} (msg : M) (cbs : List (Callback M S E))
    (s : S) : S :=
  cbs.foldl (fun st cb => (cb msg st).1) s

/-- Dispatch of one received message in `_reader_loop`:
`self._callbacks.get(mtype, []) + self._callbacks.get("*", [])`. -/
def dispatchMessage {M S E : Type} (cbs : Callbacks M S E) (mtype : String)
    (msg : M) (s : S) : S :=
  runCallbacks msg (getCallbacks cbs mtype ++ getCallbacks cbs "*") s

/-- The receive loop over the finite sequence of messages a session
receives before it is stopped: each message is dispatched in turn and the
loop continues regardless of callback exceptions. -/
def readerLoop {M S E : Type} (cbs : Callbacks M S E)
    (msgs : List (String × M)) (s : S) : S :=
  msgs.foldl (fun st m => dispatchMessage cbs m.1 m.2 st) s

/-- Observable events of the conformance harness run, mirroring the
side effects of `test_navlink_msg.main` (lines 277-320) and
`SimpleVehicle.wait_heartbeat_from`.  `heartbeatFailureReport` is the
report the specification asserts on a timed-out heartbeat wait; the source
emits no such report, so no embedded function ever produces it. -/
inductive HEvent where
  | connectFailed (which : Nat)
  | waitedHeartbeat (selfSys target timeout : Nat) (success : Bool)
  | heartbeatSeenReport (selfSys target : Nat)
  | heartbeatFailureReport (selfSys target : Nat)
  | sent (fromSys : Nat)
  deriving DecidableEq, Repr

/-- Is this event a report of a failed heartbeat wait? -/
def isFailureReport : HEvent → Bool
  | HEvent.heartbeatFailureReport _ _ => true
  | _ => false

/-- `SimpleVehicle.wait_heartbeat_from(target_sysid, timeout)`: poll the
heartbeats received before the deadline (abstracted as the list `observed`
of their source system ids); on the first match print the success line and
return `True`, on expiry return `False` without emitting anything. -/
def wait_heartbeat_from (selfSys target timeout : Nat) (observed : List Nat) :
    Bool × List HEvent :=
  if observed.contains target then
    (true, [HEvent.waitedHeartbeat selfSys target timeout true,
            HEvent.heartbeatSeenReport selfSys target])
  else
    (false, [HEvent.waitedHeartbeat selfSys target timeout false])

/-- The environment of one conformance run: whether each session's connect
succeeds, the heartbeat source ids each session observes during its
cross-heartbeat wait, and whether any matching message was logged by the
settle deadline. -/
structure HarnessEnv where
  connect1 : Bool
  connect2 : Bool
  hbSeenBy2 : List Nat
  hbSeenBy1 : List Nat
  anyReceived : Bool
  deriving Repr

/-- The connect/wait/send/verdict control flow of `test_navlink_msg.main`
after message construction: vehicle 1 has source identity 251 and vehicle 2
has 252; a failed connect aborts with exit 1; then
`vehicle2.wait_heartbeat_from(1, 10.0)` and
`vehicle1.wait_heartbeat_from(2, 10.0)` (results discarded); then the
message is sent from vehicle 2, and after the settle sleep the exit status
is 0 exactly when the received log is non-empty. -/
def harness_run (env : HarnessEnv) : Nat × List HEvent :=
  if env.connect1 = false then (1, [HEvent.connectFailed 1])
  else if env.connect2 = false then (1, [HEvent.connectFailed 2])
  else
    ((if env.anyReceived then 0 else 1),
     (wait_heartbeat_from 252 1 10 env.hbSeenBy2).2 ++
       (wait_heartbeat_from 251 2 10 env.hbSeenBy1).2 ++ [HEvent.sent 252])

/-- The value of one `key=value` command-line parameter after the
type-sniffing conversion of `parse_params`.  Python's IEEE-754 `float` is
modelled as the exact decimal value in `ℚ`; the claims only depend on
which variant is produced. -/
inductive PVal where
  | int (n : Int)
  | float (q : ℚ)
  | bool (b : Bool)
  | str (s : String)
  deriving DecidableEq, Repr

/-- `str.isdigit()` over ASCII text: non-empty and all decimal digits. -/
def pyIsdigit (s : String) : Bool :=
  !s.isEmpty && s.toList.all Char.isDigit

/-- `str.lower()` over ASCII text. -/
def pyLower (s : String) : String :=
  String.mk (s.toList.map Char.toLower)

/-- `int(value)` for a string accepted by the digit guard of
`parse_params` (all digits, possibly after a leading minus). -/
def pyIntOfString (s : String) : Int :=
  if s.startsWith "-" then -(natOfDigits (s.toList.drop 1) : Int)
  else (natOfDigits s.toList : Int)

/-- One maximal digit group of a Python numeric literal, with single
underscores allowed between digits: `digit (underscore? digit)*`.  Returns
the digits collected and the unconsumed rest.  The fuel argument (the input
length) only bounds the recursion and is never exhausted, as each step
consumes at least one character. -/
def digitGroupAuxF : Nat → List Char → List Char × List Char
  | 0, cs => ([], cs)
  | _ + 1, [] => ([], [])
  | fuel + 1, c :: '_' :: d :: cs' =>
    if c.isDigit then
      if d.isDigit then
        ((digitGroupAuxF fuel (d :: cs')).1.cons c, (digitGroupAuxF fuel (d :: cs')).2)
      else ([c], '_' :: d :: cs')
    else ([], c :: '_' :: d :: cs')
  | fuel + 1, c :: cs =>
    if c.isDigit then
      ((digitGroupAuxF fuel cs).1.cons c, (digitGroupAuxF fuel cs).2)
    else ([], c :: cs)

/-- One maximal digit group, starting with full fuel. -/
def digitGroupAux (cs : List Char) : List Char × List Char :=
  digitGroupAuxF cs.length cs

/-- A required digit group: fails unless the input starts with a digit. -/
def parseDigitGroup (cs : List Char) : Option (List Char × List Char) :=
  match cs with
  | c :: _ => if c.isDigit then some (digitGroupAux cs) else none
  | [] => none

/-- An optional digit group: the empty group when no digit is present. -/
def parseOptDigitGroup (cs : List Char) : List Char × List Char :=
  match parseDigitGroup cs with
  | some r => r
  | none => ([], cs)

/-- An optional sign, returned as the factor it contributes. -/
def parseSign : List Char → Int × List Char
  | '-' :: cs => (-1, cs)
  | '+' :: cs => (1, cs)
  | cs => (1, cs)

/-- The exponent suffix of a float literal: `(e|E) sign? digits`, returning
the signed exponent, or failing (`none`) when an `e` is present but
malformed; `some (0, cs)` when no exponent is present. -/
def parseExponent (cs : List Char) : Option (Int × List Char) :=
  match cs with
  | 'e' :: cs' =>
    match parseDigitGroup (parseSign cs').2 with
    | some (ds, rest) => some ((parseSign cs').1 * (natOfDigits ds : Int), rest)
    | none => none
  | 'E' :: cs' =>
    match parseDigitGroup (parseSign cs').2 with
    | some (ds, rest) => some ((parseSign cs').1 * (natOfDigits ds : Int), rest)
    | none => none
  | _ => some (0, cs)

/-- The mantissa of a float literal: `digits [. digits]` with at least one
digit on one side of the dot.  Returns integer digits, fraction digits and
the rest. -/
def parseMantissa (cs : List Char) : Option (List Char × List Char × List Char) :=
  match parseOptDigitGroup cs with
  | (ipart, rest) =>
    match rest with
    | '.' :: rest' =>
      match parseOptDigitGroup rest' with
      | (fpart, rest'') =>
        if ipart.isEmpty && fpart.isEmpty then none
        else some (ipart, fpart, rest'')
    | _ => if ipart.isEmpty then none else some (ipart, [], rest)

/-- `float(value)` restricted to the numeric grammar: strip surrounding
whitespace, optional sign, mantissa, optional exponent, nothing left over.
(`inf`/`infinity`/`nan` contain no `.` and therefore never reach the float
branch of `parse_params`, so they are not modelled.)  `none` models the
`ValueError` that the caller catches. -/
def pyFloatOfString (s : String) : Option ℚ :=
  match parseMantissa (parseSign ((s.toList.dropWhile Char.isWhitespace).reverse.dropWhile Char.isWhitespace).reverse).2 with
  | none => none
  | some (ipart, fpart, rest) =>
    match parseExponent rest with
    | none => none
    | some (ex, rest') =>
      if rest'.isEmpty then
        some (match ex with
          | Int.ofNat e =>
            mkRat ((parseSign ((s.toList.dropWhile Char.isWhitespace).reverse.dropWhile Char.isWhitespace).reverse).1 *
                (natOfDigits (ipart ++ fpart) : Int) * ((10 ^ e : Nat) : Int))
              (10 ^ fpart.length)
          | Int.negSucc e =>
            mkRat ((parseSign ((s.toList.dropWhile Char.isWhitespace).reverse.dropWhile Char.isWhitespace).reverse).1 *
                (natOfDigits (ipart ++ fpart) : Int))
              (10 ^ (fpart.length + (e + 1))))
      else none

/-- The type-sniffing conversion applied to one parameter value by
`parse_params`: contains `.` → attempt `float` (a `ValueError` is caught
and leaves the string); all digits, or a leading minus then all digits →
`int`; case-insensitive `true`/`false` → `bool`; anything else stays a
string. -/
def convertValue (value : String) : PVal :=
  if value.toList.contains '.' then
    match pyFloatOfString value with
    | some q => PVal.float q
    | none => PVal.str value
  else if pyIsdigit value || (value.startsWith "-" && pyIsdigit (value.drop 1)) then
    PVal.int (pyIntOfString value)
  else if pyLower value == "true" || pyLower value == "false" then
    PVal.bool (pyLower value == "true")
  else PVal.str value

/-- `param.split('=', 1)`: split at the first `=`; `none` when there is no
`=` in the parameter (`parse_params` then skips it). -/
def split1Eq : List Char → Option (List Char × List Char)
  | [] => none
  | '=' :: rest => some ([], rest)
  | c :: rest => (split1Eq rest).map (fun p => (c :: p.1, p.2))

/-- Dict assignment for the `result` dict of `parse_params`. -/
def dictInsertKV (t : List (String × PVal)) (k : String) (v : PVal) :
    List (String × PVal) :=
  if t.any (fun p => p.1 == k) then
    t.map (fun p => if p.1 == k then (k, v) else p)
  else t ++ [(k, v)]

/-- `parse_params(params)`: for each `key=value` string (parameters without
`=` are skipped), convert the value and store it under the key. -/
def parse_params (params : List String) : List (String × PVal) :=
  params.foldl
    (fun acc param =>
      match split1Eq param.toList with
      | none => acc
      | some (k, v) => dictInsertKV acc (String.mk k) (convertValue (String.mk v)))
    []

/-- The header-file content of the specification's parsing example: the
whole table block on a single line, one catalog tuple (id 25002) and one
non-catalog tuple (id 1). -/
def exampleHeaderContent : String :=
  "#define MAVLINK_MESSAGE_CRCS \x7b\x7b25002, 100, 20, 20, 0, 0, 0\x7d, \x7b1, 50, 9, 9, 0,0,0\x7d\x7d"

/-- The table both agreeing sources of the C1 witness scenario extract. -/
def witnessTable : Table := [(25002, ⟨"CHECK_IN", 100, 28⟩)]

/-! Helper lemmas about the comparator. -/

theorem findEntry_isSome_eq_any (t : Table) (i : Nat) :
    (findEntry t i).isSome = t.any (fun p => p.1 == i) := by
  induction t with
  | nil => rfl
  | cons p rest ih =>
    unfold findEntry at ih ⊢
    cases hb : (p.1 == i) with
    | false =>
      rw [List.find?_cons_of_neg, List.any_cons, hb, Bool.false_or, ih]
      simp [hb]
    | true =>
      rw [List.find?_cons_of_pos, List.any_cons, hb, Bool.true_or]
      · rfl
      · exact hb

theorem findEntry_isSome_iff (t : Table) (i : Nat) :
    (findEntry t i).isSome = true ↔ i ∈ t.map Prod.fst := by
  rw [findEntry_isSome_eq_any, List.any_eq_true]
  simp [List.mem_map]

theorem mem_allIds (t1 t2 : Table) (i : Nat) :
    i ∈ allIds t1 t2 ↔
      (findEntry t1 i).isSome = true ∨ (findEntry t2 i).isSome = true := by
  rw [findEntry_isSome_iff, findEntry_isSome_iff]
  simp only [allIds]
  rw [(List.perm_insertionSort _ _).mem_iff, List.mem_dedup, List.mem_append]

theorem allIds_nodup (t1 t2 : Table) : (allIds t1 t2).Nodup :=
  (List.perm_insertionSort _ _).symm.nodup (List.nodup_dedup _)

theorem allIds_sorted_le (t1 t2 : Table) :
    List.Sorted (· ≤ ·) (allIds t1 t2) :=
  List.sorted_insertionSort _ _

theorem allIds_sorted_lt (t1 t2 : Table) :
    List.Pairwise (· < ·) (allIds t1 t2) :=
  ((allIds_sorted_le t1 t2).and (allIds_nodup t1 t2)).imp
    (fun h => lt_of_le_of_ne h.1 h.2)

theorem allIds_comm (t1 t2 : Table) : allIds t1 t2 = allIds t2 t1 := by
  apply List.eq_of_perm_of_sorted _ (allIds_sorted_le t1 t2) (allIds_sorted_le t2 t1)
  apply List.Subperm.antisymm
  · exact List.subperm_of_subset (allIds_nodup t1 t2) (fun i hi => by
      rw [mem_allIds] at hi ⊢
      exact hi.symm)
  · exact List.subperm_of_subset (allIds_nodup t2 t1) (fun i hi => by
      rw [mem_allIds] at hi ⊢
      exact hi.symm)

theorem compareAt_msg_id (n1 n2 : String) (t1 t2 : Table) (i : Nat) :
    ∀ d ∈ compareAt n1 t1 n2 t2 i, d.msg_id = i := by
  intro d
  unfold compareAt
  rcases findEntry t1 i with _ | d1 <;> rcases findEntry t2 i with _ | d2 <;> intro hd
  · simp at hd
  · simp at hd
    simp [hd]
  · simp at hd
    simp [hd]
  · by_cases hc : d1.crc ≠ d2.crc
    · simp only [if_pos hc, List.mem_singleton] at hd
      simp [hd]
    · simp only [if_neg hc] at hd
      simp at hd

theorem compareAt_length_le (n1 n2 : String) (t1 t2 : Table) (i : Nat) :
    (compareAt n1 t1 n2 t2 i).length ≤ 1 := by
  unfold compareAt
  rcases findEntry t1 i with _ | d1 <;> rcases findEntry t2 i with _ | d2 <;> simp
  split <;> simp

theorem compareAt_mem_allIds (n1 n2 : String) (t1 t2 : Table) (i : Nat)
    (h : compareAt n1 t1 n2 t2 i ≠ []) : i ∈ allIds t1 t2 := by
  rw [mem_allIds]
  revert h
  unfold compareAt
  rcases h1 : findEntry t1 i with _ | d1 <;> rcases h2 : findEntry t2 i with _ | d2 <;>
    intro h <;> simp [h1, h2]
  exact absurd rfl h

theorem mem_compare_iff (n1 n2 : String) (t1 t2 : Table) (d : Discrepancy) :
    d ∈ (compare_crcs n1 (some t1) n2 (some t2)).1 ↔
      d ∈ compareAt n1 t1 n2 t2 d.msg_id := by
  show d ∈ ((allIds t1 t2).map (compareAt n1 t1 n2 t2)).flatten ↔ _
  rw [List.mem_flatten]
  constructor
  · rintro ⟨l, hl, hd⟩
    rcases List.mem_map.mp hl with ⟨i, _, rfl⟩
    rwa [compareAt_msg_id n1 n2 t1 t2 i d hd]
  · intro hd
    refine ⟨compareAt n1 t1 n2 t2 d.msg_id, List.mem_map.mpr ⟨d.msg_id, ?_, rfl⟩, hd⟩
    refine compareAt_mem_allIds n1 n2 t1 t2 d.msg_id ?_
    intro hnil
    rw [hnil] at hd
    exact absurd hd (List.not_mem_nil d)

theorem map_msgid_flatten (u : List Nat) (f : Nat → List Discrepancy)
    (hf : ∀ j, ∀ d ∈ f j, d.msg_id = j) (hl : ∀ j, (f j).length ≤ 1) :
    ((u.map f).flatten).map Discrepancy.msg_id =
      u.filter (fun i => !(f i).isEmpty) := by
  induction u with
  | nil => rfl
  | cons a u ih =>
    rw [List.map_cons, List.flatten_cons, List.map_append, ih, List.filter_cons]
    rcases hcase : f a with _ | ⟨d, rest⟩
    · simp
    · have hrest : rest = [] := by
        have := hl a
        rw [hcase] at this
        simpa using this
      subst hrest
      have hd : d.msg_id = a := hf a d (by rw [hcase]; exact List.mem_singleton_self d)
      simp [hcase, hd]

theorem filter_flatten_not_mem (u : List Nat) (f : Nat → List Discrepancy)
    (hf : ∀ j, ∀ d ∈ f j, d.msg_id = j) (i : Nat) (hi : i ∉ u) :
    ((u.map f).flatten).filter (fun d => d.msg_id == i) = [] := by
  induction u with
  | nil => rfl
  | cons a u ih =>
    rw [List.map_cons, List.flatten_cons, List.filter_append]
    have ha : a ≠ i := fun h => hi (h ▸ List.mem_cons_self a u)
    have h1 : (f a).filter (fun d => d.msg_id == i) = [] := by
      rw [List.filter_eq_nil_iff]
      intro d hd
      simp [hf a d hd, ha]
    rw [h1, ih (fun h => hi (List.mem_cons_of_mem a h)), List.append_nil]

theorem filter_flatten_mem (u : List Nat) (f : Nat → List Discrepancy)
    (hf : ∀ j, ∀ d ∈ f j, d.msg_id = j) (hu : u.Nodup) (i : Nat) (hi : i ∈ u) :
    ((u.map f).flatten).filter (fun d => d.msg_id == i) = f i := by
  induction u with
  | nil => exact absurd hi (List.not_mem_nil i)
  | cons a u ih =>
    rw [List.map_cons, List.flatten_cons, List.filter_append]
    rcases List.nodup_cons.mp hu with ⟨hau, hu'⟩
    rcases List.mem_cons.mp hi with rfl | hiu
    · have h1 : (f i).filter (fun d => d.msg_id == i) = f i := by
        rw [List.filter_eq_self]
        intro d hd
        simp [hf i d hd]
      rw [h1, filter_flatten_not_mem u f hf i hau, List.append_nil]
    · have ha : a ≠ i := fun h => hau (h ▸ hiu)
      have h1 : (f a).filter (fun d => d.msg_id == i) = [] := by
        rw [List.filter_eq_nil_iff]
        intro d hd
        simp [hf a d hd, ha]
      rw [h1, ih hu' hiu, List.nil_append]

/-- C5: for every pair of inputs to `compare_crcs` in which at least one of
the two tables is the absence marker `None`, the comparator returns the
empty pair of error and warning lists (and, being total, cannot raise). -/
theorem c5_compare_absent_empty (n1 n2 : String) (t : Option Table) :
    compare_crcs n1 none n2 t = ([], []) ∧ compare_crcs n1 t n2 none = ([], []) := by
  constructor
  · rfl
  · cases t <;> rfl

/-- C1: the driver's exit status is 0 iff the concatenation `all_errors` of
all pairwise discrepancies is empty, and 1 exactly when some discrepancy
was produced; moreover, whenever every compared pair yields no
discrepancies (in particular when sources are unavailable and all
available pairs agree), the verdict is PASS with exit status 0. -/
theorem c1_exit_status (s : Sources) :
    (check_main s = 0 ↔ runPairs s = [])
    ∧ (check_main s = 1 ↔ runPairs s ≠ [])
    ∧ ((∀ p ∈ pairs, (compare_crcs p.1 (s.get p.1) p.2 (s.get p.2)).1 = []) →
        check_main s = 0) := by
  have hpass : (∀ p ∈ pairs, (compare_crcs p.1 (s.get p.1) p.2 (s.get p.2)).1 = []) →
      runPairs s = [] := by
    intro hall
    have h1 := hall ("pymavlink", "ardupilot") (by simp [pairs])
    have h2 := hall ("pymavlink", "router") (by simp [pairs])
    have h3 := hall ("ardupilot", "router") (by simp [pairs])
    unfold runPairs pairs
    simp only [List.foldl_cons, List.foldl_nil]
    rw [h1, h2, h3]
    simp
  by_cases hnil : runPairs s = []
  · have he : (runPairs s).isEmpty = true := List.isEmpty_iff.mpr hnil
    exact ⟨by simp [check_main, he, hnil], by simp [check_main, he, hnil],
      fun _ => by simp [check_main, he]⟩
  · have he : (runPairs s).isEmpty = false := by
      cases h : (runPairs s).isEmpty
      · rfl
      · exact absurd (List.isEmpty_iff.mp h) hnil
    exact ⟨by simp [check_main, he, hnil], by simp [check_main, he, hnil],
      fun hall => absurd (hpass hall) hnil⟩

/-- C1 witness: one of three sources unavailable and the two available ones
agreeing is a PASS with exit status 0. -/
theorem c1_exit_status_witness :
    check_main ⟨some witnessTable, none, some witnessTable⟩ = 0 :=
  (c1_exit_status ⟨some witnessTable, none, some witnessTable⟩).2.2 (by decide)

/-- C10: a source whose extraction succeeded but produced an empty table is
skipped by the pair guard exactly as an unavailable (`None`) source is —
both `all_errors` and the exit status are unchanged by replacing an empty
table with the absence marker in any of the three source slots — so an
empty extraction can never contribute a discrepancy or a FAIL verdict. -/
theorem c10_empty_table_like_absent (p a r : Option Table) :
    (runPairs ⟨some [], a, r⟩ = runPairs ⟨none, a, r⟩
      ∧ check_main ⟨some [], a, r⟩ = check_main ⟨none, a, r⟩)
    ∧ (runPairs ⟨p, some [], r⟩ = runPairs ⟨p, none, r⟩
      ∧ check_main ⟨p, some [], r⟩ = check_main ⟨p, none, r⟩)
    ∧ (runPairs ⟨p, a, some []⟩ = runPairs ⟨p, a, none⟩
      ∧ check_main ⟨p, a, some []⟩ = check_main ⟨p, a, none⟩) := by
  have h1 : runPairs ⟨some [], a, r⟩ = runPairs ⟨none, a, r⟩ := rfl
  have h2 : runPairs ⟨p, some [], r⟩ = runPairs ⟨p, none, r⟩ := by
    unfold runPairs pairs
    simp only [List.foldl_cons, List.foldl_nil, Sources.get]
    simp [truthy]
  have h3 : runPairs ⟨p, a, some []⟩ = runPairs ⟨p, a, none⟩ := by
    unfold runPairs pairs
    simp only [List.foldl_cons, List.foldl_nil, Sources.get]
    simp [truthy]
  exact ⟨⟨h1, by unfold check_main; rw [h1]⟩,
    ⟨h2, by unfold check_main; rw [h2]⟩,
    ⟨h3, by unfold check_main; rw [h3]⟩⟩

/-- C6: the text-artifact extractor returns the absence marker when the
file does not exist; on a file whose single-line block holds the catalog
tuple (25002, 100, 20, 20, 0, 0, 0) and the non-catalog tuple
(1, 50, 9, 9, 0, 0, 0), it returns exactly the one descriptor with id
25002, name CHECK_IN, integrity code 100 and length 20. -/
theorem c6_parse_header :
    parse_c_header_crcs none = none
    ∧ parse_c_header_crcs (some exampleHeaderContent) =
        some [(25002, ⟨"CHECK_IN", 100, 20⟩)] :=
  ⟨rfl, by decide⟩

theorem compareAt_isEmpty_symm (n1 n2 : String) (t1 t2 : Table) (i : Nat) :
    (compareAt n1 t1 n2 t2 i).isEmpty = (compareAt n2 t2 n1 t1 i).isEmpty := by
  unfold compareAt
  rcases findEntry t1 i with _ | d1 <;> rcases findEntry t2 i with _ | d2 <;> simp
  by_cases hc : d1.crc = d2.crc
  · simp [hc]
  · simp [hc, show ¬d2.crc = d1.crc from fun h => hc h.symm]


theorem compareAt_missing_symm (n1 n2 : String) (t1 t2 : Table) (i : Nat)
    (nm s : String) :
    (⟨i, nm, Issue.missingIn s⟩ : Discrepancy) ∈ compareAt n1 t1 n2 t2 i ↔
      (⟨i, nm, Issue.missingIn s⟩ : Discrepancy) ∈ compareAt n2 t2 n1 t1 i := by
  unfold compareAt
  rcases findEntry t1 i with _ | d1 <;> rcases findEntry t2 i with _ | d2 <;> simp

theorem compareAt_mismatch_symm (n1 n2 : String) (t1 t2 : Table) (i c1 c2 : Nat) :
    (∃ nm, (⟨i, nm, Issue.crcMismatch n1 c1 n2 c2⟩ : Discrepancy) ∈
        compareAt n1 t1 n2 t2 i) ↔
      (∃ nm, (⟨i, nm, Issue.crcMismatch n2 c2 n1 c1⟩ : Discrepancy) ∈
        compareAt n2 t2 n1 t1 i) := by
  unfold compareAt
  rcases findEntry t1 i with _ | d1 <;> rcases findEntry t2 i with _ | d2 <;> simp
  constructor
  · rintro ⟨h1, h2, h3⟩
    exact ⟨fun h => h1 h.symm, h3, h2⟩
  · rintro ⟨h1, h2, h3⟩
    exact ⟨fun h => h1 h.symm, h3, h2⟩

/-- C2: for every pair of non-absent tables, `compare_crcs` in the two call
orders reports the same ids (in the same order), the same missing-in-a-side
records (side name swapped consistently, so the records coincide), and the
same integrity mismatches with the two reported values swapped. -/
theorem c2_compare_symmetric (nA nB : String) (tA tB : Table) :
    ((compare_crcs nA (some tA) nB (some tB)).1.map Discrepancy.msg_id =
      (compare_crcs nB (some tB) nA (some tA)).1.map Discrepancy.msg_id)
    ∧ (∀ (i : Nat) (nm s : String),
        (⟨i, nm, Issue.missingIn s⟩ : Discrepancy) ∈
            (compare_crcs nA (some tA) nB (some tB)).1 ↔
          (⟨i, nm, Issue.missingIn s⟩ : Discrepancy) ∈
            (compare_crcs nB (some tB) nA (some tA)).1)
    ∧ (∀ (i c1 c2 : Nat),
        (∃ nm, (⟨i, nm, Issue.crcMismatch nA c1 nB c2⟩ : Discrepancy) ∈
            (compare_crcs nA (some tA) nB (some tB)).1) ↔
          (∃ nm, (⟨i, nm, Issue.crcMismatch nB c2 nA c1⟩ : Discrepancy) ∈
            (compare_crcs nB (some tB) nA (some tA)).1)) := by
  refine ⟨?_, ?_, ?_⟩
  · show (((allIds tA tB).map (compareAt nA tA nB tB)).flatten).map Discrepancy.msg_id =
      (((allIds tB tA).map (compareAt nB tB nA tA)).flatten).map Discrepancy.msg_id
    rw [map_msgid_flatten _ _ (fun j => compareAt_msg_id nA nB tA tB j)
        (fun j => compareAt_length_le nA nB tA tB j),
      map_msgid_flatten _ _ (fun j => compareAt_msg_id nB nA tB tA j)
        (fun j => compareAt_length_le nB nA tB tA j),
      allIds_comm tB tA]
    exact List.filter_congr (fun i _ => by rw [compareAt_isEmpty_symm])
  · intro i nm s
    rw [mem_compare_iff, mem_compare_iff]
    exact compareAt_missing_symm nA nB tA tB i nm s
  · intro i c1 c2
    constructor
    · rintro ⟨nm, h⟩
      rw [mem_compare_iff] at h
      rcases (compareAt_mismatch_symm nA nB tA tB i c1 c2).mp ⟨nm, h⟩ with ⟨nm2, h2⟩
      exact ⟨nm2, (mem_compare_iff nB nA tB tA _).mpr h2⟩
    · rintro ⟨nm, h⟩
      rw [mem_compare_iff] at h
      rcases (compareAt_mismatch_symm nA nB tA tB i c1 c2).mpr ⟨nm, h⟩ with ⟨nm2, h2⟩
      exact ⟨nm2, (mem_compare_iff nA nB tA tB _).mpr h2⟩

/-- C3: an id present in both tables with equal integrity codes produces no
discrepancy regardless of the two length values; consequently two tables
whose entries agree on presence and integrity code everywhere (in
particular, tables identical except for lengths) compare to an empty error
list. -/
theorem c3_length_relaxation (n1 n2 : String) (t1 t2 : Table) :
    (∀ (i : Nat) (d1 d2 : Desc), findEntry t1 i = some d1 →
        findEntry t2 i = some d2 → d1.crc = d2.crc →
        ∀ d ∈ (compare_crcs n1 (some t1) n2 (some t2)).1, d.msg_id ≠ i)
    ∧ ((∀ i : Nat, (findEntry t1 i).map Desc.crc = (findEntry t2 i).map Desc.crc) →
        (compare_crcs n1 (some t1) n2 (some t2)).1 = []) := by
  constructor
  · intro i d1 d2 h1 h2 hc d hd heq
    rw [mem_compare_iff, heq] at hd
    unfold compareAt at hd
    rw [h1, h2] at hd
    simp [hc] at hd
  · intro hcrc
    show ((allIds t1 t2).map (compareAt n1 t1 n2 t2)).flatten = []
    rw [List.flatten_eq_nil_iff]
    intro l hl
    rcases List.mem_map.mp hl with ⟨i, _, rfl⟩
    have hi := hcrc i
    unfold compareAt
    rcases h1 : findEntry t1 i with _ | d1 <;> rcases h2 : findEntry t2 i with _ | d2 <;>
      rw [h1, h2] at hi <;> simp at hi ⊢
    exact hi

/-- C3 witness: two singleton tables identical except for the length value
(20 versus 28) produce an empty discrepancy list. -/
theorem c3_length_relaxation_witness :
    (compare_crcs "pymavlink" (some [(25002, ⟨"CHECK_IN", 100, 20⟩)]) "router"
        (some [(25002, ⟨"CHECK_IN", 100, 28⟩)])).1 = [] :=
  (c3_length_relaxation "pymavlink" "router"
      [(25002, ⟨"CHECK_IN", 100, 20⟩)] [(25002, ⟨"CHECK_IN", 100, 28⟩)]).2
    (by
      intro i
      by_cases h : (25002 : Nat) = i
      · subst h
        rfl
      · have hb : ((25002 : Nat) == i) = false := by simpa using h
        simp [findEntry, List.find?, hb])

/-- C4: `compare_crcs` on two non-absent tables emits discrepancies with
strictly increasing message ids (each id of the union visited once, in
ascending order), and for every id the emitted records are exactly those of
the specified rule: only-in-A gives a missing-in-B record named from A's
entry, only-in-B gives a missing-in-A record named from B's entry,
present-in-both with differing integrity codes gives one mismatch record
reporting both values, and otherwise nothing. -/
theorem c4_compare_rule (n1 n2 : String) (t1 t2 : Table) :
    List.Pairwise (· < ·)
      ((compare_crcs n1 (some t1) n2 (some t2)).1.map Discrepancy.msg_id)
    ∧ (∀ i : Nat,
        (compare_crcs n1 (some t1) n2 (some t2)).1.filter (fun d => d.msg_id == i) =
          (match findEntry t1 i, findEntry t2 i with
           | some d1, none => [⟨i, d1.name, Issue.missingIn n2⟩]
           | none, some d2 => [⟨i, d2.name, Issue.missingIn n1⟩]
           | some d1, some d2 =>
               if d1.crc ≠ d2.crc then
                 [⟨i, d1.name, Issue.crcMismatch n1 d1.crc n2 d2.crc⟩]
               else []
           | none, none => [])) := by
  constructor
  · show List.Pairwise (· < ·)
      ((((allIds t1 t2).map (compareAt n1 t1 n2 t2)).flatten).map Discrepancy.msg_id)
    rw [map_msgid_flatten _ _ (fun j => compareAt_msg_id n1 n2 t1 t2 j)
        (fun j => compareAt_length_le n1 n2 t1 t2 j)]
    exact (allIds_sorted_lt t1 t2).sublist (List.filter_sublist _)
  · intro i
    have hrule : (match findEntry t1 i, findEntry t2 i with
        | some d1, none => [(⟨i, d1.name, Issue.missingIn n2⟩ : Discrepancy)]
        | none, some d2 => [⟨i, d2.name, Issue.missingIn n1⟩]
        | some d1, some d2 =>
            if d1.crc ≠ d2.crc then
              [⟨i, d1.name, Issue.crcMismatch n1 d1.crc n2 d2.crc⟩]
            else []
        | none, none => []) = compareAt n1 t1 n2 t2 i := by
      unfold compareAt
      rcases findEntry t1 i with _ | d1 <;> rcases findEntry t2 i with _ | d2 <;> rfl
    rw [hrule]
    by_cases hi : i ∈ allIds t1 t2
    · exact filter_flatten_mem (allIds t1 t2) (compareAt n1 t1 n2 t2)
        (fun j => compareAt_msg_id n1 n2 t1 t2 j) (allIds_nodup t1 t2) i hi
    · rw [show (compare_crcs n1 (some t1) n2 (some t2)).1 =
          ((allIds t1 t2).map (compareAt n1 t1 n2 t2)).flatten from rfl]
      rw [filter_flatten_not_mem (allIds t1 t2) (compareAt n1 t1 n2 t2)
        (fun j => compareAt_msg_id n1 n2 t1 t2 j) i hi]
      have h1 : findEntry t1 i = none := by
        cases hfe : findEntry t1 i
        · rfl
        · exact absurd ((mem_allIds t1 t2 i).mpr (Or.inl (by rw [hfe]; rfl))) hi
      have h2 : findEntry t2 i = none := by
        cases hfe : findEntry t2 i
        · rfl
        · exact absurd ((mem_allIds t1 t2 i).mpr (Or.inr (by rw [hfe]; rfl))) hi
      unfold compareAt
      rw [h1, h2]

/-! Helper lemmas about the callback registry. -/

theorem find?_map_update {M S E : Type} (l : Callbacks M S E) (k k' : String)
    (cb : Callback M S E) :
    (l.map (fun q => if q.1 == k then (q.1, q.2 ++ [cb]) else q)).find?
        (fun q => q.1 == k') =
      (l.find? (fun q => q.1 == k')).map
        (fun q => if q.1 == k then (q.1, q.2 ++ [cb]) else q) := by
  induction l with
  | nil => rfl
  | cons q rest ih =>
    rw [List.map_cons]
    have hkey : ((if q.1 == k then (q.1, q.2 ++ [cb]) else q).1 == k') = (q.1 == k') := by
      cases hq : (q.1 == k) <;> simp
    cases hq' : (q.1 == k') with
    | true =>
      rw [List.find?_cons_of_pos _ (by rw [hkey]; exact hq')]
      have h2 : List.find? (fun q => q.1 == k') (q :: rest) = some q :=
        List.find?_cons_of_pos _ hq'
      rw [h2]
      rfl
    | false =>
      rw [List.find?_cons_of_neg _ (by rw [hkey]; simp [hq']),
        List.find?_cons_of_neg _ (by simp [hq']), ih]

theorem getCallbacks_on_message {M S E : Type} (cbs : Callbacks M S E)
    (k k' : String) (cb : Callback M S E) :
    getCallbacks (on_message cbs k cb) k' =
      if k' = k then getCallbacks cbs k' ++ [cb] else getCallbacks cbs k' := by
  unfold on_message
  cases hany : cbs.any (fun q => q.1 == k) with
  | true =>
    rw [if_pos rfl]
    unfold getCallbacks
    rw [find?_map_update]
    by_cases hk : k' = k
    · subst hk
      cases hf : cbs.find? (fun q => q.1 == k') with
      | none =>
        rcases List.any_eq_true.mp hany with ⟨q, hq, hpq⟩
        exact absurd hpq (List.find?_eq_none.mp hf q hq)
      | some q =>
        have hq1 := List.find?_some hf
        rw [if_pos rfl, Option.map_some']
        simp only [beq_iff_eq] at hq1
        simp [hq1]
    · rw [if_neg hk]
      cases hf : cbs.find? (fun q => q.1 == k') with
      | none => rfl
      | some q =>
        have hq1 := List.find?_some hf
        simp only [beq_iff_eq] at hq1
        have hqk : (q.1 == k) = false := by
          simp [hq1]
          exact fun h => hk h
        rw [Option.map_some']
        simp [hqk]
  | false =>
    rw [if_neg (by simp)]
    unfold getCallbacks
    rw [List.find?_append]
    have hnone : cbs.find? (fun q => q.1 == k) = none :=
      List.find?_eq_none.mpr (by
        intro q hq
        have := List.any_eq_false.mp hany
        exact this q hq)
    by_cases hk : k' = k
    · subst hk
      rw [hnone, Option.none_or]
      rw [List.find?_cons_of_pos _ (by simp)]
      simp
    · cases hf : cbs.find? (fun q => q.1 == k') with
      | none =>
        rw [Option.none_or, List.find?_cons_of_neg _ (by simp; exact fun h => hk h.symm)]
        simp [hk]
      | some q =>
        simp [hk]

theorem getCallbacks_registerAll_aux {M S E : Type}
    (regs : List (String × Callback M S E)) (acc : Callbacks M S E) (k : String) :
    getCallbacks (regs.foldl (fun c r => on_message c r.1 r.2) acc) k =
      getCallbacks acc k ++ (regs.filter (fun r => r.1 == k)).map Prod.snd := by
  induction regs generalizing acc with
  | nil => simp
  | cons r rest ih =>
    rw [List.foldl_cons, ih, getCallbacks_on_message]
    cases hr : (r.1 == k) with
    | true =>
      have hk : k = r.1 := by
        have h' : r.1 = k := by simpa using hr
        exact h'.symm
      have hfil : List.filter (fun x => x.1 == k) (r :: rest) =
          r :: List.filter (fun x => x.1 == k) rest := by
        simp [List.filter_cons, hr]
      rw [if_pos hk, hfil, List.map_cons, List.append_assoc, List.singleton_append]
    | false =>
      have hk : ¬ k = r.1 := fun h => by simp [h] at hr
      have hfil : List.filter (fun x => x.1 == k) (r :: rest) =
          List.filter (fun x => x.1 == k) rest := by
        simp [List.filter_cons, hr]
      rw [if_neg hk, hfil]

theorem getCallbacks_registerAll {M S E : Type}
    (regs : List (String × Callback M S E)) (k : String) :
    getCallbacks (registerAll regs) k = (regs.filter (fun r => r.1 == k)).map Prod.snd := by
  unfold registerAll
  rw [getCallbacks_registerAll_aux]
  rfl

/-- C7: dispatching a received message runs exactly the callbacks
registered (in registration order) for the message's type name, followed by
those registered for the wildcard key; each callback in the schedule runs
on the state left by its predecessor whether or not that predecessor raised
(the raised exception is discarded at the dispatch site), and the receive
loop goes on to the next message after every dispatch. -/
theorem c7_dispatch (M S E : Type) (regs : List (String × Callback M S E))
    (mtype : String) (msg : M) (s : S) :
    (dispatchMessage (registerAll regs) mtype msg s =
      runCallbacks msg
        (((regs.filter (fun r => r.1 == mtype)).map Prod.snd) ++
          ((regs.filter (fun r => r.1 == "*")).map Prod.snd)) s)
    ∧ (∀ (pre post : List (Callback M S E)) (cb : Callback M S E) (s0 : S),
        runCallbacks msg (pre ++ cb :: post) s0 =
          runCallbacks msg post (cb msg (runCallbacks msg pre s0)).1)
    ∧ (∀ (cbs : Callbacks M S E) (ms : List (String × M)) (m : M) (s1 : S),
        readerLoop cbs ((mtype, m) :: ms) s1 =
          readerLoop cbs ms (dispatchMessage cbs mtype m s1)) := by
  refine ⟨?_, ?_, ?_⟩
  · unfold dispatchMessage
    rw [getCallbacks_registerAll, getCallbacks_registerAll]
  · intro pre post cb s0
    unfold runCallbacks
    rw [List.foldl_append, List.foldl_cons]
  · intro cbs ms m s1
    unfold readerLoop
    rw [List.foldl_cons]

/-- C8 counterexample: with both sessions connected, session 2 observing a
heartbeat whose source identity is 251 (session 1's identity) and session 1
observing one from 252 (session 2's identity), both waits still time out —
the calls poll for the hard-coded autopilot system ids 1 and 2, not the
sessions' identities — and the trace shows no failure report of any kind,
while the message is nevertheless sent from session 2 (identity 252). -/
theorem c8_counterexample :
    (harness_run ⟨true, true, [251], [252], true⟩).2 =
      [HEvent.waitedHeartbeat 252 1 10 false,
       HEvent.waitedHeartbeat 251 2 10 false,
       HEvent.sent 252]
    ∧ ((harness_run ⟨true, true, [251], [252], true⟩).2.all
        (fun e => !(isFailureReport e))) = true
    ∧ HEvent.sent 252 ∈ (harness_run ⟨true, true, [251], [252], true⟩).2 := by
  refine ⟨rfl, rfl, ?_⟩
  show HEvent.sent 252 ∈ [HEvent.waitedHeartbeat 252 1 10 false,
    HEvent.waitedHeartbeat 251 2 10 false, HEvent.sent 252]
  simp

/-- C8 as amended: after both sessions connect, the driver performs the two
cross-heartbeat waits, each with its own 10-second bound — session 2
polling for system id 1 and session 1 for system id 2, the hard-coded
autopilot ids rather than the sessions' own identities 251 and 252 — a
timed-out wait is silently ignored (no failure report is ever emitted) and
does not abort: the message is still sent from session 2. -/
theorem c8_send_despite_timeout (env : HarnessEnv)
    (h1 : env.connect1 = true) (h2 : env.connect2 = true) :
    HEvent.waitedHeartbeat 252 1 10 (env.hbSeenBy2.contains 1) ∈ (harness_run env).2
    ∧ HEvent.waitedHeartbeat 251 2 10 (env.hbSeenBy1.contains 2) ∈ (harness_run env).2
    ∧ HEvent.sent 252 ∈ (harness_run env).2
    ∧ ((harness_run env).2.all (fun e => !(isFailureReport e))) = true := by
  have hr : (harness_run env).2 =
      (wait_heartbeat_from 252 1 10 env.hbSeenBy2).2 ++
        (wait_heartbeat_from 251 2 10 env.hbSeenBy1).2 ++ [HEvent.sent 252] := by
    unfold harness_run
    rw [h1, h2]
    simp
  rw [hr]
  unfold wait_heartbeat_from
  cases hc2 : env.hbSeenBy2.contains 1 <;> cases hc1 : env.hbSeenBy1.contains 2 <;>
    simp [isFailureReport]

/-- C8 witness: a run in which both connects succeed and neither wait
observes its target system id; both waits record failure, no failure report
is emitted, and the send still happens. -/
theorem c8_send_despite_timeout_witness :
    HEvent.waitedHeartbeat 252 1 10 (([251] : List Nat).contains 1) ∈
        (harness_run ⟨true, true, [251], [252], false⟩).2
    ∧ HEvent.waitedHeartbeat 251 2 10 (([252] : List Nat).contains 2) ∈
        (harness_run ⟨true, true, [251], [252], false⟩).2
    ∧ HEvent.sent 252 ∈ (harness_run ⟨true, true, [251], [252], false⟩).2
    ∧ (((harness_run ⟨true, true, [251], [252], false⟩).2.all
        (fun e => !(isFailureReport e))) = true) :=
  c8_send_despite_timeout ⟨true, true, [251], [252], false⟩ rfl rfl

/-! Helper lemmas about parameter splitting. -/

theorem split1Eq_cons_ne (c : Char) (rest : List Char) (hc : c ≠ '=') :
    split1Eq (c :: rest) = (split1Eq rest).map (fun p => (c :: p.1, p.2)) := by
  rw [split1Eq.eq_def]
  split
  · rename_i heq
    simp at heq
  · simp_all
  · rename_i x1 c2 rest2 hne heq
    injection heq with h1 h2
    subst h1
    subst h2
    rfl

theorem split1Eq_key (k v : List Char) (h : ('=' : Char) ∉ k) :
    split1Eq (k ++ '=' :: v) = some (k, v) := by
  induction k with
  | nil => rfl
  | cons c k' ih =>
    have hc : c ≠ '=' := fun he => h (he ▸ List.mem_cons_self c k')
    rw [List.cons_append, split1Eq_cons_ne c _ hc,
      ih (fun hm => h (List.mem_cons_of_mem c hm))]
    rfl

/-- C9 counterexample: the parameter `x=a.b` has a value containing `.`,
yet it is stored as the string `"a.b"`, not as a float — `float("a.b")`
raises `ValueError`, which `parse_params` catches by keeping the string —
refuting the claim that a value containing `.` becomes a float. -/
theorem c9_counterexample :
    parse_params ["x=a.b"] = [("x", PVal.str "a.b")]
    ∧ ("a.b".toList.contains '.') = true :=
  ⟨by decide, by decide⟩

/-- C9 as amended: each `key=value` parameter is converted by the sniffing
rule in which a value containing `.` becomes a float only when it parses as
a float literal and otherwise stays a string (the `ValueError` fallback);
the int, bool and string branches are as claimed. -/
theorem c9_param_conversion (key value : String)
    (h : ('=' : Char) ∉ key.toList) :
    parse_params [key ++ "=" ++ value] = [(key, convertValue value)]
    ∧ (value.toList.contains '.' = true →
        ((∃ q, pyFloatOfString value = some q ∧ convertValue value = PVal.float q)
          ∨ (pyFloatOfString value = none ∧ convertValue value = PVal.str value)))
    ∧ (value.toList.contains '.' = false →
        (pyIsdigit value || (value.startsWith "-" && pyIsdigit (value.drop 1))) = true →
        convertValue value = PVal.int (pyIntOfString value))
    ∧ (value.toList.contains '.' = false →
        (pyIsdigit value || (value.startsWith "-" && pyIsdigit (value.drop 1))) = false →
        (pyLower value == "true" || pyLower value == "false") = true →
        convertValue value = PVal.bool (pyLower value == "true"))
    ∧ (value.toList.contains '.' = false →
        (pyIsdigit value || (value.startsWith "-" && pyIsdigit (value.drop 1))) = false →
        (pyLower value == "true" || pyLower value == "false") = false →
        convertValue value = PVal.str value) := by
  refine ⟨?_, ?_, ?_, ?_, ?_⟩
  · have hx : (key ++ "=" ++ value).toList = key.toList ++ '=' :: value.toList := by
      simp
    have hsplit := split1Eq_key key.toList value.toList h
    unfold parse_params
    rw [List.foldl_cons, List.foldl_nil, hx, hsplit]
    rfl
  · intro hdot
    unfold convertValue
    rw [hdot]
    cases hq : pyFloatOfString value with
    | some q => exact Or.inl ⟨q, rfl, by simp⟩
    | none => exact Or.inr ⟨rfl, by simp⟩
  · intro h1 h2
    unfold convertValue
    rw [h1, h2]
    rfl
  · intro h1 h2 h3
    unfold convertValue
    rw [h1, h2, h3]
    rfl
  · intro h1 h2 h3
    unfold convertValue
    rw [h1, h2, h3]
    rfl

/-- C9 witness: the parameter `lat=40.31` parses to the key `lat` with the
float value 40.31 (modelled as the exact decimal 4031/100). -/
theorem c9_param_conversion_witness :
    parse_params ["lat" ++ "=" ++ "40.31"] = [("lat", convertValue "40.31")]
    ∧ convertValue "40.31" = PVal.float (mkRat 4031 100) :=
  ⟨(c9_param_conversion "lat" "40.31" (by decide)).1, by decide⟩
